import Mathlib

/-!
Verification of the Keccak-f[1600] permutation circuit of this repository
(src/keccak256/src/permutation/circuit.rs and src/keccak256/src/gates/rho.rs)
against its natural-language specification.

The circuit sequencer and the rho gate are embedded from the source.  Helper
modules that the source imports but that are not part of the repository
snapshot (the plain oracle KeccakFArith, the pi index map, the lookup tables,
the generic fixed-addition helper and the shared constants) are modelled from
the specification; each such definition carries a doc comment starting with
the words Modelled from the spec.
-/

/-- Modelled from the spec: the constant PERMUTATION from common.rs (not under
src/); the specification fixes the round count at 24. -/
def PERMUTATION : Nat := 24

/-- Modelled from the spec: the constant NEXT_INPUTS_LANES from common.rs (not
under src/); the specification fixes the next-input block at up to 17 lanes. -/
def NEXT_INPUTS_LANES : Nat := 17

/-- Modelled from the spec: the 24 standard Keccak round constants from
common.rs (not under src/), statically known values, never part of the
witness. -/
def ROUND_CONSTANTS : List Nat :=
  [0x0000000000000001, 0x0000000000008082, 0x800000000000808a,
   0x8000000080008000, 0x000000000000808b, 0x0000000080000001,
   0x8000000080008081, 0x8000000000008009, 0x000000000000008a,
   0x0000000000000088, 0x0000000080008009, 0x000000008000000a,
   0x000000008000808b, 0x800000000000008b, 0x8000000000008089,
   0x8000000000008003, 0x8000000000008002, 0x8000000000000080,
   0x000000000000800a, 0x800000008000000a, 0x8000000080008081,
   0x8000000000008080, 0x0000000080000001, 0x8000000080008008]

/-- The last round constant, as used by the sequencer through
ROUND_CONSTANTS.last().unwrap(). -/
def lastRC : Nat := ROUND_CONSTANTS.getLastD 0

/-- Modelled from the spec: the standard Keccak-f rotation-offset table from
common.rs (not under src/), indexed as offsets[x][y]. -/
def ROTATION_CONSTANTS : List (List Nat) :=
  [[0, 36, 3, 41, 18],
   [1, 44, 10, 45, 2],
   [62, 6, 43, 15, 61],
   [28, 55, 25, 21, 56],
   [27, 20, 39, 8, 14]]

/-- A 25-lane Keccak state, addressed by the flattened index 5 * x + y used
throughout the source. -/
abbrev KState := Fin 25 → Nat

/-- A next-input block of NEXT_INPUTS_LANES lanes. -/
abbrev NextInput := Fin NEXT_INPUTS_LANES → Nat

/-- Flattened lane index for coordinates (x, y). -/
def idxL (x y : Nat) : Fin 25 := ⟨5 * (x % 5) + y % 5, by omega⟩

/-- Modelled from the spec: encoding of a 64-bit word value as a base-b
integer, one digit per bit (the numeral-base encoding of section 3). -/
def natToBase (b v : Nat) : Nat :=
  (List.range 64).foldr (fun j acc => acc + v / 2 ^ j % 2 * b ^ j) 0

/-- Modelled from the spec: decoding of a base-b encoded lane back to the
64-bit word it represents, taking the parity of every digit. -/
def baseToNat (b v : Nat) : Nat :=
  (List.range 64).foldr (fun j acc => acc + v / b ^ j % b % 2 * 2 ^ j) 0

/-- Sum of the five lanes of column x, used by the theta linear
combination. -/
def colSum (st : KState) (x : Nat) : Nat :=
  st (idxL x 0) + st (idxL x 1) + st (idxL x 2) + st (idxL x 3) + st (idxL x 4)

/-- Modelled from the spec: KeccakFArith::theta from keccak_arith.rs (not
under src/).  Column-parity mixing over the base-13 state: each lane receives
the base-13 arithmetic sum of its own value, the sum of the column to its
left, and 13 times the sum of the column to its right (the multiplication by
13 is the one-bit rotation), so that digit parities reproduce bitwise XOR. -/
def KeccakFArith.theta (st : KState) : KState := fun i =>
  st i + colSum st ((i.val / 5 + 4) % 5) + 13 * colSum st ((i.val / 5 + 1) % 5)

/-- Rotation offset of the lane with flattened index i. -/
def rhoOffset (i : Fin 25) : Nat :=
  (ROTATION_CONSTANTS.getD (i.val / 5) []).getD (i.val % 5) 0

/-- Modelled from the spec: rotation of a base-13 encoded lane by off bit
positions, re-deriving the chunked digit decomposition and reassembling the
chunks in rotated order in the same base. -/
def rotB13 (off v : Nat) : Nat :=
  (List.range 64).foldr (fun j acc => acc + v / 13 ^ j % 13 * 13 ^ ((j + off) % 64)) 0

/-- Modelled from the spec: the value semantics of the rho step (the witness
values produced by RhoConfig::assign_rotation_checks, whose per-lane
LaneRotateConversionConfig lives in running_sum.rs, not under src/): every
lane is rotated left by its lane-specific fixed offset. -/
def KeccakFArith.rho (st : KState) : KState := fun i => rotB13 (rhoOffset i) (st i)

/-- Source index of the pi relabeling: the output lane at position (x, y)
reads the input lane at position (y, (2x + 3y) mod 5). -/
def piSource (i : Fin 25) : Fin 25 :=
  ⟨5 * (i.val % 5) + (2 * (i.val / 5) + 3 * (i.val % 5)) % 5, by omega⟩

/-- Modelled from the spec: pi_gate_permutation from pi.rs (not under src/).
Pure index relabeling of the 25 lanes, with no arithmetic constraint and no
assignment: output lane (x, y) equals input lane (y, (2x + 3y) mod 5). -/
def pi_gate_permutation (st : KState) : KState := fun i => st (piSource i)

/-- All 64 bits set, the width mask used by the chi bit combination. -/
def mask64 : Nat := 2 ^ 64 - 1

/-- Modelled from the spec: the per-bit chi combination a XOR (NOT b AND c)
on 64-bit words. -/
def chiWord (a b c : Nat) : Nat := Nat.xor a (Nat.land (Nat.xor mask64 b) c)

/-- Modelled from the spec: KeccakFArith::xi from keccak_arith.rs (not under
src/).  For each lane (x, y) it combines the three lanes (x, y), (x + 1, y),
(x + 2, y) by the chi rule a XOR (NOT b AND c), re-encoding the result in
base 9. -/
def KeccakFArith.xi (st : KState) : KState := fun i =>
  natToBase 9 (chiWord (baseToNat 13 (st i))
    (baseToNat 13 (st (idxL (i.val / 5 + 1) (i.val % 5))))
    (baseToNat 13 (st (idxL (i.val / 5 + 2) (i.val % 5)))))

/-- Modelled from the spec: the base-9 to base-13 conversion of one lane
(section 4.7), applied digit-chunk-wise through the base-9 lookup table. -/
def convB9toB13 (v : Nat) : Nat :=
  (List.range 64).foldr (fun j acc => acc + v / 9 ^ j % 9 % 2 * 13 ^ j) 0

/-- Modelled from the spec: the whole-state base-9 to base-13 conversion
performed between rounds by BaseConversionConfig (base_conversion.rs, not
under src/), gated by the activation flag that the sequencer sets to one. -/
def convB9toB13State (st : KState) : KState := fun i => convB9toB13 (st i)

/-- Modelled from the spec: the coefficient A4 of IotaConstants (iota.rs, not
under src/), the fixed multiplier applied to the base-9 encoded round
constants. -/
def A4 : Nat := 2

/-- Modelled from the spec: the table a4_times_round_constants_b9 of
IotaConstants (iota.rs, not under src/): A4 times the base-9 encoding of each
standard round constant, a statically known fixed value per round. -/
def a4_times_round_constants_b9 (r : Nat) : Nat :=
  A4 * natToBase 9 (ROUND_CONSTANTS.getD r 0)

/-- The iota assignment of the sequencer (circuit.rs): the lane at index 0 is
replaced by GenericConfig::add_fixed of its value and the statically known
constant a4_times_round_constants_b9[round_idx]; no other lane is touched.
The fixed-constant addition helper itself (generic.rs) is not under src/ and
is modelled from the spec as addition of the fixed value. -/
def iotaAssign (r : Nat) (st : KState) : KState := fun i =>
  if i = 0 then st 0 + a4_times_round_constants_b9 r else st i

/-- Modelled from the spec: KeccakFArith::mixing from keccak_arith.rs (not
under src/).  With no next input it applies the final iota addition with the
given round constant; with a next input it first absorbs the block into the
first NEXT_INPUTS_LANES lanes by the base arithmetic XOR analog (digit-wise
sum) and then applies the final iota addition. -/
def KeccakFArith.mixing (st : KState) (next? : Option NextInput) (rc : Nat) : KState :=
  match next? with
  | none => fun i => if i = 0 then st 0 + A4 * natToBase 9 rc else st i
  | some next =>
    let absorbed : KState := fun i =>
      if h : i.val < NEXT_INPUTS_LANES then st i + natToBase 13 (next ⟨i.val, h⟩) else st i
    fun i => if i = 0 then absorbed 0 + natToBase 13 rc else absorbed i

/-- Modelled from the spec: the first n full oracle rounds (theta, rho, pi,
chi, iota with the round index, then base conversion back to base 13),
applied in round order starting from round 0. -/
def KeccakFArith.firstRounds : Nat → KState → KState
  | 0, st => st
  | n + 1, st =>
    convB9toB13State (iotaAssign n (KeccakFArith.xi (pi_gate_permutation
      (KeccakFArith.rho (KeccakFArith.theta (KeccakFArith.firstRounds n st))))))

/-- Modelled from the spec: the plain oracle permutation permute(state,
optional next input): 23 full rounds, a final round of theta, rho, pi, chi
without iota or base conversion, then the mixing finalization with the last
round constant. -/
def KeccakFArith.permute (st : KState) (next? : Option NextInput) : KState :=
  KeccakFArith.mixing
    (KeccakFArith.xi (pi_gate_permutation (KeccakFArith.rho (KeccakFArith.theta
      (KeccakFArith.firstRounds (PERMUTATION - 1) st)))))
    next? lastRC

/-- One step of the sequencer loop of KeccakFConfig::assign_permutation, used
to tag the trace of applied steps. -/
inductive StepEv
  | theta
  | rho
  | pi
  | xi
  | iota (r : Nat)
  | conv
  | mixing
deriving DecidableEq

/-- Whether a sequencer step invokes the layouter (emits assignments and
gates).  Read off the calls in KeccakFConfig::assign_permutation: every step
receives the layouter except pi, which is the plain function call
pi_gate_permutation(state.clone()). -/
def stepUsesLayouter : StepEv → Bool
  | StepEv.pi => false
  | _ => true

/-- The state computed by the round loop of KeccakFConfig::assign_permutation
(circuit.rs, lines 137 to 199), iterating over the given round indices: each
iteration applies theta, rho, pi and xi; when the index is PERMUTATION - 1
the loop breaks, otherwise the iota fixed addition and the base-9 to base-13
conversion follow and the loop continues. -/
def assignRoundsState : List Nat → KState → KState
  | [], st => st
  | r :: rs, st =>
    let st4 := KeccakFArith.xi (pi_gate_permutation
      (KeccakFArith.rho (KeccakFArith.theta st)))
    if r = PERMUTATION - 1 then st4
    else assignRoundsState rs (convB9toB13State (iotaAssign r st4))

/-- The trace of steps applied by the round loop of
KeccakFConfig::assign_permutation over the given round indices, mirroring the
same control flow as assignRoundsState. -/
def assignRoundsTrace : List Nat → List StepEv
  | [] => []
  | r :: rs =>
    [StepEv.theta, StepEv.rho, StepEv.pi, StepEv.xi] ++
      (if r = PERMUTATION - 1 then []
       else [StepEv.iota r, StepEv.conv] ++ assignRoundsTrace rs)

/-- KeccakFConfig::assign_permutation (circuit.rs): runs the round loop over
0..PERMUTATION, computes the mixing result by the oracle KeccakFArith::mixing
with None when the flag is false and Some(next_mixing) when it is true, using
the last round constant, and passes that result forward; paired with the
trace of applied steps. -/
def assign_permutation (in_state : KState) (flag : Bool) (next_mixing : NextInput) :
    KState × List StepEv :=
  let st := assignRoundsState (List.range PERMUTATION) in_state
  let mix_res := KeccakFArith.mixing st
    (if flag = false then none else some next_mixing) lastRC
  (mix_res, assignRoundsTrace (List.range PERMUTATION) ++ [StepEv.mixing])

/-- The two advice rows of the region written by
KeccakFConfig::constrain_out_state, over the 25 state columns: the selector
enabled per row offset and the cell values per (state column, row offset).
Rows other than 0 and 1 are not written by the region and are modelled as
zero; the out-state gate never reads them because the selector is enabled
only at offset 0. -/
structure OutStateRegion where
  q_out : Nat → Bool
  cell : Fin 25 → Nat → Int

/-- KeccakFConfig::constrain_out_state (circuit.rs, lines 225 to 258): inside
one region it enables the q_out selector at offset 0, copies the computed
out_mixing cells into the state columns at offset 0, witnesses the externally
supplied out_state at offset 1, and returns the 25 witnessed expected-output
cells. -/
def constrain_out_state (out_mixing out_state : Fin 25 → Int) :
    OutStateRegion × (Fin 25 → Int) :=
  (⟨fun row => row = 0,
    fun idx row =>
      if row = 0 then out_mixing idx else if row = 1 then out_state idx else 0⟩,
   out_state)

/-- One polynomial of the gate named Constraint out_state correctness
(KeccakFConfig::configure, circuit.rs, lines 94 to 104): for lane idx at a
row, q_out times the difference between the cell at the current row and the
cell at the next row. -/
def outGatePoly (R : OutStateRegion) (idx : Fin 25) (row : Nat) : Int :=
  (if R.q_out row then 1 else 0) * (R.cell idx row - R.cell idx (row + 1))

/-- The out-state gate is satisfied: every one of its 25 polynomials
vanishes at every row. -/
def outGateHolds (R : OutStateRegion) : Prop :=
  ∀ (idx : Fin 25) (row : Nat), outGatePoly R idx row = 0

/-- The pair of small bounded block-count counters attached to one lane
rotation (gate_helpers.rs BlockCount2, not under src/; the spec describes it
as a pair of bounded counters). -/
structure BlockCount2 where
  step2 : Nat
  step3 : Nat
deriving DecidableEq

/-- One observable action of RhoConfig::assign_rotation_checks: a per-lane
rotate-conversion assignment, or the final aggregate block-count check over
the collected pairs. -/
inductive RhoEvent
  | lane_conversion (idx : Nat)
  | final_block_count (bcs : List BlockCount2)
deriving DecidableEq

/-- Overall outcome of RhoConfig::assign_rotation_checks: a panic raised by
an unwrap, a propagated Err value, or the Ok list of next-row lanes. -/
inductive RhoOutcome (E : Type)
  | panic
  | err (e : E)
  | ok (lanes : List Nat)
deriving DecidableEq

/-- The per-lane loop of RhoConfig::assign_rotation_checks (rho.rs, lines 44
to 59): for each index in order it invokes that lane's rotate-conversion
assignment and unwraps the result, so the first Error aborts with a panic
(modelled as the none outcome) instead of being propagated; on success it
collects the (next lane, block-count pair) tuples. -/
def rhoLanesGo (laneConv : Nat → Nat → Except E (Nat × BlockCount2))
    (prev : Nat → Nat) : List Nat → Option (List (Nat × BlockCount2)) × List RhoEvent
  | [] => (some [], [])
  | i :: is =>
    match laneConv i (prev i) with
    | Except.error _ => (none, [RhoEvent.lane_conversion i])
    | Except.ok p =>
      let rest := rhoLanesGo laneConv prev is
      (rest.1.map (fun l => p :: l), RhoEvent.lane_conversion i :: rest.2)

/-- RhoConfig::assign_rotation_checks (rho.rs, lines 39 to 68), parameterized
by the per-lane rotate-conversion assignments (the
LaneRotateConversionConfig array, whose implementation lives in
running_sum.rs, not under src/) and by the final aggregate block-count
assignment (BlockCountFinalConfig): it maps the per-lane conversion over the
25 lanes unwrapping each result, splits the tuples into block counts and next
state, performs the single final block-count check over all 25 pairs with its
error propagated by the question-mark operator, and returns the next
state. -/
def assign_rotation_checks (laneConv : Nat → Nat → Except E (Nat × BlockCount2))
    (finalCheck : List BlockCount2 → Except E Unit) (prev : Nat → Nat) :
    RhoOutcome E × List RhoEvent :=
  let r := rhoLanesGo laneConv prev (List.range 25)
  match r.1 with
  | none => (RhoOutcome.panic, r.2)
  | some lane_and_bcs =>
    let block_counts := lane_and_bcs.map Prod.snd
    let next_state := lane_and_bcs.map Prod.fst
    match finalCheck block_counts with
    | Except.error e => (RhoOutcome.err e, r.2 ++ [RhoEvent.final_block_count block_counts])
    | Except.ok _ => (RhoOutcome.ok next_state, r.2 ++ [RhoEvent.final_block_count block_counts])

/-- The numeral bases that tag circuit lanes. -/
inductive NumBase
  | b2
  | b9
  | b13
deriving DecidableEq

/-- Input base of the rho step, per the comment State in base-13 at the top
of the round loop of circuit.rs and the comment that the between-round
conversion produces base-13 which is what Theta requires. -/
def rhoInputBase : NumBase := NumBase.b13

/-- Output base of the rho step, per the comment directly after the
assign_rotation_checks call in circuit.rs: Outputs in base-9 which is what Pi
requires. -/
def rhoOutputBase : NumBase := NumBase.b9

/-- Input base of the xi (chi) step.  Pi is a pure relabeling that re-encodes
nothing, so xi receives lanes in exactly the base rho produced; consistently,
circuit.rs applies the base-9 iota constants right after xi and then remarks
The resulting state is in Base-9 now before converting back to base-13. -/
def xiInputBase : NumBase := rhoOutputBase

/-- Concrete fixture: a previous state for the rho gate, lane i holding
value i. -/
def prevEx : Nat → Nat := fun i => i

/-- Concrete fixture: per-lane rotate-conversions that all succeed, returning
the lane value unchanged with zero block counts. -/
def laneConvEx : Nat → Nat → Except Nat (Nat × BlockCount2) :=
  fun _ l => Except.ok (l, ⟨0, 0⟩)

/-- Concrete fixture: per-lane rotate-conversions where lane 3 fails with
error code 7 and every other lane succeeds. -/
def laneConvBad : Nat → Nat → Except Nat (Nat × BlockCount2) :=
  fun i l => if i = 3 then Except.error 7 else Except.ok (l, ⟨0, 0⟩)

/-- Concrete fixture: a final aggregate block-count check that accepts. -/
def finalCheckEx : List BlockCount2 → Except Nat Unit := fun _ => Except.ok ()

/-- Concrete fixture: the tuples laneConvEx produces from prevEx. -/
def pairsEx : Nat → Nat × BlockCount2 := fun i => (i, ⟨0, 0⟩)

/-- Concrete fixture: a computed mixing output, every lane one. -/
def mixEx : Fin 25 → Int := fun _ => 1

/-- Concrete fixture: an expected output state, every lane zero. -/
def expEx : Fin 25 → Int := fun _ => 0

/-- Concrete fixture: a 25-lane state with lane i holding value i. -/
def stEx : KState := fun i => i.val

/-! Helper lemmas. -/

set_option maxRecDepth 4000 in
/-- The round loop of assign_permutation computes the same state as the 23
full oracle rounds followed by a final theta, rho, pi, xi. -/
theorem assignRoundsState_eq_oracle (st : KState) :
    assignRoundsState (List.range PERMUTATION) st =
      KeccakFArith.xi (pi_gate_permutation (KeccakFArith.rho (KeccakFArith.theta
        (KeccakFArith.firstRounds (PERMUTATION - 1) st)))) := rfl

/-- If every lane conversion in a list of lane indices succeeds, the per-lane
loop of the rho gate collects exactly those tuples and the corresponding
lane-conversion events. -/
theorem rhoLanesGo_all_ok {E : Type} (laneConv : Nat → Nat → Except E (Nat × BlockCount2))
    (prev : Nat → Nat) (pairs : Nat → Nat × BlockCount2) (l : List Nat)
    (h : ∀ i ∈ l, laneConv i (prev i) = Except.ok (pairs i)) :
    rhoLanesGo laneConv prev l = (some (l.map pairs), l.map RhoEvent.lane_conversion) := by
  induction l with
  | nil => rfl
  | cons i is ih =>
    have hi := h i (List.mem_cons_self i is)
    have hrest := ih (fun j hj => h j (List.mem_cons_of_mem i hj))
    simp [rhoLanesGo, hi, hrest]

/-- If some lane conversion in the list fails, the per-lane loop of the rho
gate produces no tuple list (the unwrap panics). -/
theorem rhoLanesGo_has_error {E : Type} (laneConv : Nat → Nat → Except E (Nat × BlockCount2))
    (prev : Nat → Nat) (i : Nat) (e : E) (l : List Nat) (hmem : i ∈ l)
    (herr : laneConv i (prev i) = Except.error e) :
    (rhoLanesGo laneConv prev l).1 = none := by
  induction l with
  | nil => exact absurd hmem (List.not_mem_nil i)
  | cons j js ih =>
    rcases List.mem_cons.mp hmem with hji | hmem2
    · subst hji
      simp [rhoLanesGo, herr]
    · cases hc : laneConv j (prev j) with
      | error e2 => simp [rhoLanesGo, hc]
      | ok p => simp [rhoLanesGo, hc, ih hmem2]

/-! Claim theorems. -/

set_option maxRecDepth 4000 in
/-- C1: for every call to assign_permutation the round loop executes exactly
PERMUTATION (24) iterations, each applying theta, then rho, then pi, then chi
(xi) in that order; the iota fixed-constant addition and the base-9 to
base-13 conversion follow chi in every round except the one with index
PERMUTATION - 1, where the loop breaks before them and the mixing step is
invoked instead. -/
theorem assign_permutation_round_structure (st : KState) (flag : Bool) (next : NextInput) :
    (assign_permutation st flag next).2 =
      ((List.range PERMUTATION).flatMap fun r =>
        [StepEv.theta, StepEv.rho, StepEv.pi, StepEv.xi] ++
          (if r = PERMUTATION - 1 then [] else [StepEv.iota r, StepEv.conv]))
        ++ [StepEv.mixing] := rfl

set_option maxRecDepth 4000 in
/-- C2: the mixing result passed forward by assign_permutation equals the
oracle value KeccakFArith::mixing of the post-loop state with None and the
last round constant when the flag is false, that is permute(state, None), and
with Some(next_mixing) when the flag is true, that is permute(state,
Some(next_input)). -/
theorem assign_permutation_mixing_oracle (st : KState) (next : NextInput) :
    (assign_permutation st false next).1 =
        KeccakFArith.mixing (assignRoundsState (List.range PERMUTATION) st) none lastRC
      ∧ (assign_permutation st false next).1 = KeccakFArith.permute st none
      ∧ (assign_permutation st true next).1 =
        KeccakFArith.mixing (assignRoundsState (List.range PERMUTATION) st) (some next) lastRC
      ∧ (assign_permutation st true next).1 = KeccakFArith.permute st (some next) := by
  refine ⟨rfl, ?_, rfl, ?_⟩
  · show KeccakFArith.mixing (assignRoundsState (List.range PERMUTATION) st) none lastRC
      = KeccakFArith.permute st none
    rw [assignRoundsState_eq_oracle st]
    rfl
  · show KeccakFArith.mixing (assignRoundsState (List.range PERMUTATION) st) (some next) lastRC
      = KeccakFArith.permute st (some next)
    rw [assignRoundsState_eq_oracle st]
    rfl

/-- C3: constrain_out_state enables q_out at row offset 0, places the
computed output there, witnesses the expected output at row offset 1, the
out-state gate holds exactly when all 25 lane pairs agree, any differing lane
makes the gate unsatisfiable, and the function returns the 25 witnessed
expected-output cells. -/
theorem constrain_out_state_spec (m e : Fin 25 → Int) :
    (constrain_out_state m e).1.q_out 0 = true
      ∧ (∀ i, (constrain_out_state m e).1.cell i 0 = m i)
      ∧ (∀ i, (constrain_out_state m e).1.cell i 1 = e i)
      ∧ (outGateHolds (constrain_out_state m e).1 ↔ ∀ i, m i = e i)
      ∧ (∀ i, m i ≠ e i → ¬ outGateHolds (constrain_out_state m e).1)
      ∧ (∀ i, (constrain_out_state m e).2 i = e i) := by
  have hiff : outGateHolds (constrain_out_state m e).1 ↔ ∀ i, m i = e i := by
    constructor
    · intro h i
      have h0 := h i 0
      simp [outGatePoly, constrain_out_state, sub_eq_zero] at h0
      exact h0
    · intro h idx row
      by_cases hr : row = 0
      · subst hr
        simp [outGatePoly, constrain_out_state, sub_eq_zero, h idx]
      · simp [outGatePoly, constrain_out_state, hr]
  refine ⟨rfl, fun i => rfl, fun i => rfl, hiff, ?_, fun i => rfl⟩
  intro i hne hg
  exact hne (hiff.mp hg i)

/-- Witness for C3 at a concrete differing pair: computed output all ones,
expected output all zeros, so the out-state gate cannot hold. -/
theorem constrain_out_state_spec_witness :
    ¬ outGateHolds (constrain_out_state mixEx expEx).1 :=
  (constrain_out_state_spec mixEx expEx).2.2.2.2.1 0 (by decide)

/-- C4: when every per-lane rotate-conversion succeeds,
assign_rotation_checks applies it to each of the 25 lanes, obtaining one
rotated lane and one block-count pair per lane, performs exactly one final
aggregate block-count check over all 25 collected pairs jointly after the 25
lane conversions, and returns the 25 rotated lanes. -/
theorem assign_rotation_checks_structure {E : Type}
    (laneConv : Nat → Nat → Except E (Nat × BlockCount2))
    (finalCheck : List BlockCount2 → Except E Unit) (prev : Nat → Nat)
    (pairs : Nat → Nat × BlockCount2)
    (hlanes : ∀ i < 25, laneConv i (prev i) = Except.ok (pairs i))
    (hfinal : finalCheck (((List.range 25).map pairs).map Prod.snd) = Except.ok ()) :
    assign_rotation_checks laneConv finalCheck prev
      = (RhoOutcome.ok (((List.range 25).map pairs).map Prod.fst),
         ((List.range 25).map RhoEvent.lane_conversion)
           ++ [RhoEvent.final_block_count (((List.range 25).map pairs).map Prod.snd)]) := by
  have h := rhoLanesGo_all_ok laneConv prev pairs (List.range 25)
    (fun i hi => hlanes i (List.mem_range.mp hi))
  simp only [assign_rotation_checks, h, hfinal]

/-- Witness for C4: all-succeeding lane conversions over the state with lane
i holding value i, an accepting final check, and the resulting 25 rotated
lanes and single aggregate check. -/
theorem assign_rotation_checks_structure_witness :
    assign_rotation_checks laneConvEx finalCheckEx prevEx
      = (RhoOutcome.ok (((List.range 25).map pairsEx).map Prod.fst),
         ((List.range 25).map RhoEvent.lane_conversion)
           ++ [RhoEvent.final_block_count (((List.range 25).map pairsEx).map Prod.snd)]) :=
  assign_rotation_checks_structure laneConvEx finalCheckEx prevEx pairsEx
    (fun _ _ => rfl) rfl

/-- C5 counterexample: the claim that rho keeps its lanes in the input base
(base-13), so that chi receives a base-13 state, is false of the circuit: the
source documents the rho output base as base-9. -/
theorem rho_stays_base13_counterexample :
    ¬ (rhoOutputBase = rhoInputBase ∧ xiInputBase = NumBase.b13) := by decide

/-- C5 amended: every lane value produced by the rho step is encoded in
base-9 (rho converts its base-13 input while rotating), and pi passes lane
values through unchanged, so the state handed via pi to the chi step is a
25-lane base-9 state. -/
theorem rho_output_base_nine :
    rhoInputBase = NumBase.b13 ∧ rhoOutputBase = NumBase.b9 ∧ xiInputBase = NumBase.b9
      ∧ (∀ (st : KState) (i : Fin 25), pi_gate_permutation st i = st (piSource i)) :=
  ⟨rfl, rfl, rfl, fun _ _ => rfl⟩

/-- C6: the pi step is a pure index relabeling: for every state and every
position (x, y) the output lane at (x, y) equals the input lane at position
(y, (2x + 3y) mod 5), and the pi step invokes no layouter, so it emits no
gates or assignments. -/
theorem pi_gate_permutation_spec :
    (∀ (st : KState) (x y : Fin 5),
        pi_gate_permutation st (idxL x.val y.val)
          = st (idxL y.val ((2 * x.val + 3 * y.val) % 5)))
      ∧ stepUsesLayouter StepEv.pi = false := by
  refine ⟨?_, rfl⟩
  intro st x y
  fin_cases x <;> fin_cases y <;> rfl

/-- C7: in every non-final round, the iota assignment replaces lane 0 by its
value plus the statically known constant a4_times_round_constants_b9 of that
round and leaves the other 24 lanes unchanged. -/
theorem iota_modifies_only_lane_zero (r : Nat) (st : KState) (hr : r < PERMUTATION - 1) :
    iotaAssign r st 0 = st 0 + a4_times_round_constants_b9 r
      ∧ ∀ i : Fin 25, i ≠ 0 → iotaAssign r st i = st i := by
  refine ⟨rfl, ?_⟩
  intro i hi
  simp [iotaAssign, hi]

/-- Witness for C7 at round 0 on the state with lane i holding value i: lane
1 is untouched by the iota assignment. -/
theorem iota_modifies_only_lane_zero_witness :
    iotaAssign 0 stEx 1 = stEx 1 :=
  (iota_modifies_only_lane_zero 0 stEx (by decide)).2 1 (by decide)

/-- C8: applying the theta transform twice to the all-zero 25-lane state
returns the all-zero state. -/
theorem theta_twice_zero_state :
    ∀ i : Fin 25, KeccakFArith.theta (KeccakFArith.theta (fun _ => 0)) i = 0 := by
  decide

/-- C9: with the flag false, the result of assign_permutation does not depend
on the next_mixing argument: two runs with equal input state and arbitrary
next-mixing values produce equal mixing results and traces. -/
theorem mixing_flag_false_ignores_next_input (st : KState) (n1 n2 : NextInput) :
    assign_permutation st false n1 = assign_permutation st false n2 := rfl

/-- C10: an Error from any single per-lane rotate-conversion makes
assign_rotation_checks panic (the unwrap inside the per-lane loop) instead of
returning an Err value, while an Error from the final aggregate block-count
assignment is propagated as an Err value by the question-mark operator. -/
theorem assign_rotation_checks_error_behavior {E : Type}
    (laneConv : Nat → Nat → Except E (Nat × BlockCount2))
    (finalCheck : List BlockCount2 → Except E Unit) (prev : Nat → Nat) :
    (∀ i, i < 25 → ∀ e : E, laneConv i (prev i) = Except.error e →
        (assign_rotation_checks laneConv finalCheck prev).1 = RhoOutcome.panic)
      ∧ (∀ (pairs : Nat → Nat × BlockCount2) (e : E),
          (∀ i < 25, laneConv i (prev i) = Except.ok (pairs i)) →
          finalCheck (((List.range 25).map pairs).map Prod.snd) = Except.error e →
          (assign_rotation_checks laneConv finalCheck prev).1 = RhoOutcome.err e) := by
  constructor
  · intro i hi e herr
    have hnone := rhoLanesGo_has_error laneConv prev i e (List.range 25)
      (List.mem_range.mpr hi) herr
    simp only [assign_rotation_checks, hnone]
  · intro pairs e hlanes hfinal
    have h := rhoLanesGo_all_ok laneConv prev pairs (List.range 25)
      (fun i hi => hlanes i (List.mem_range.mp hi))
    simp only [assign_rotation_checks, h, hfinal]

/-- Witness for C10: with lane 3 failing with error code 7,
assign_rotation_checks panics rather than returning an Err value. -/
theorem assign_rotation_checks_error_behavior_witness :
    (assign_rotation_checks laneConvBad finalCheckEx prevEx).1 = RhoOutcome.panic :=
  (assign_rotation_checks_error_behavior laneConvBad finalCheckEx prevEx).1
    3 (by decide) 7 rfl
